import Mathlib

/-!
Verification of the MacroMicro chart-analysis app (src/main.py) against its
natural-language specification.

The Python source is shallowly embedded as executable Lean definitions:

* URL identifier extraction (`extract_chart_id`) embeds the two `re.search`
  calls as deterministic scans over `List Char`.  For these specific patterns
  the backtracking semantics of `\d+/`, `[^/]+/` and a trailing `(\d+)`
  collapse to maximal-run scans: a greedy run of the character class must be
  nonempty and, when a literal `/` follows in the pattern, be followed by `/`.
  Pythons `\d` is modelled as an ASCII digit (all inputs of interest are
  ASCII).
* JSON values (`JVal`) model the payloads returned by the chart-data
  endpoint.  Numeric JSON values are modelled as integers (every value
  appearing in the claims is an integer).
* `get_series_info` embeds the try/except structure: `KeyError`/`IndexError`
  are the caught exceptions (result `parseError`, which the Python function
  turns into a reported error plus an empty list), while `TypeError`-style
  failures from subscripting or iterating values of the wrong shape escape
  the handler (`uncaught`).  Two shape simplifications are documented at the
  relevant definitions.
* The Streamlit session loop of `main` is embedded as a state machine over
  `SessionState`; network and model effects enter as explicit parameters
  (fetch results, analysis outcome).
-/

/-- One character of Pythons `\d` class, modelled as an ASCII digit. -/
def isDig (c : Char) : Bool := c.isDigit

/-- The literal part of the first recognition pattern,
`macromicro\.me/charts/`. -/
def chartsPat : List Char := "macromicro.me/charts/".data

/-- The literal part of the second recognition pattern,
`macromicro\.me/collections/`. -/
def collectionsPat : List Char := "macromicro.me/collections/".data

/-- Attempt of the pattern `macromicro\.me/charts/(\d+)` at the head of `s`:
the literal must be a prefix and at least one digit must follow; the greedy
group captures the maximal digit run. -/
def matchCharts (s : List Char) : Option (List Char) :=
  if chartsPat.isPrefixOf s then
    let d := (s.drop chartsPat.length).takeWhile isDig
    if d.isEmpty then none else some d
  else none

/-- Attempt of the pattern `macromicro\.me/collections/\d+/[^/]+/(\d+)` at the
head of `s`.  With backtracking, `\d+/` succeeds exactly when the maximal
digit run is nonempty and followed by `/`, and likewise `[^/]+/` for the
maximal slash-free run; the final greedy group captures the maximal digit
run. -/
def matchCollections (s : List Char) : Option (List Char) :=
  if collectionsPat.isPrefixOf s then
    let s1 := s.drop collectionsPat.length
    let d1 := s1.takeWhile isDig
    if d1.isEmpty then none
    else
      match s1.dropWhile isDig with
      | '/' :: s2 =>
        let sl := s2.takeWhile (fun c => !(c == '/'))
        if sl.isEmpty then none
        else
          match s2.dropWhile (fun c => !(c == '/')) with
          | _ :: s3 =>
            let d2 := s3.takeWhile isDig
            if d2.isEmpty then none else some d2
          | [] => none
      | _ => none
  else none

/-- `re.search`: try the match attempt at every start position, left to
right, and return the first success. -/
def searchWith (m : List Char → Option (List Char)) : List Char → Option (List Char)
  | [] => m []
  | c :: cs =>
    match m (c :: cs) with
    | some r => some r
    | none => searchWith m cs

/-- `extract_chart_id` on a character list: the first pattern is tried over
the whole string before the second one is considered. -/
def extractChartIdL (url : List Char) : Option (List Char) :=
  match searchWith matchCharts url with
  | some r => some r
  | none => searchWith matchCollections url

/-- `extract_chart_id` from src/main.py: extract the chart id from a
MacroMicro URL, or `none` when neither pattern matches. -/
def extract_chart_id (url : String) : Option String :=
  (extractChartIdL url.data).map String.mk

/-- Pythons `str.zfill`: pad on the left with zeros up to the width; a
leading sign stays in front of the inserted zeros. -/
def pyZfill (w : Nat) (s : List Char) : List Char :=
  match s with
  | [] => List.replicate w '0'
  | c :: rest =>
    if c = '+' ∨ c = '-' then c :: (List.replicate (w - s.length) '0' ++ rest)
    else List.replicate (w - s.length) '0' ++ s

/-- `get_preview_image_url` from src/main.py: directory segment
`chart_id[-3:].zfill(3)`, file name `<chart_id>-tc.png`. -/
def get_preview_image_url (chart_id : String) : String :=
  "https://cdn.macromicro.me/files/charts/" ++
    String.mk (pyZfill 3 (chart_id.data.drop (chart_id.data.length - 3))) ++
    "/" ++ chart_id ++ "-tc.png"

/-- JSON values, the payload shape of the chart-data endpoint.  Numeric JSON
values are modelled as integers. -/
inductive JVal where
  | null
  | bool (b : Bool)
  | num (n : Int)
  | str (s : String)
  | arr (elems : List JVal)
  | obj (fields : List (String × JVal))

/-- Lookup of a key in a JSON object, first binding wins (Python dicts have
unique keys). -/
def lookupField : List (String × JVal) → String → Option JVal
  | [], _ => none
  | (k, v) :: rest, key => if k = key then some v else lookupField rest key

/-- Python exception classes relevant to `get_series_info`:
`keyIndexErr` stands for `KeyError` or `IndexError` (the classes named in the
except clause); `uncaught` stands for any other exception (for example
`TypeError` or `AttributeError`), which escapes the handler. -/
inductive PyErr where
  | keyIndexErr
  | uncaught
deriving DecidableEq

/-- Python subscripting `v[k]` with a string key: on a dict it raises
`KeyError` when the key is absent; on any non-dict JSON value it raises
`TypeError`. -/
def subscriptS (v : JVal) (k : String) : Except PyErr JVal :=
  match v with
  | .obj fields =>
    match lookupField fields k with
    | some x => .ok x
    | none => .error .keyIndexErr
  | _ => .error .uncaught

/-- The `for i, config in enumerate(series_configs)` loop of
`get_series_info`, at absolute index `i`.  Each `config` must be a dict
(otherwise `config.get` raises `AttributeError`, modelled as `uncaught`).
Shape simplification: the values of the `series` key and its entries are
modelled as JSON arrays; Pythons `len`/slicing applied to other shapes is
modelled as an uncaught error. -/
def seriesLoop : List JVal → JVal → Nat → Except PyErr (List (JVal × List JVal))
  | [], _, _ => .ok []
  | cfg :: cfgs, sdataV, i =>
    match cfg with
    | .obj fields =>
      let name := (lookupField fields "name_tc").getD (.str ("Series " ++ toString (i + 1)))
      match sdataV with
      | .arr sdata =>
        if h : i < sdata.length then
          match sdata.get ⟨i, h⟩ with
          | .arr vs =>
            let latest_two := if 2 ≤ vs.length then vs.drop (vs.length - 2) else vs
            match seriesLoop cfgs sdataV (i + 1) with
            | .ok rest => .ok ((name, latest_two) :: rest)
            | .error e => .error e
          | _ => .error .uncaught
        else
          seriesLoop cfgs sdataV (i + 1)
      | _ => .error .uncaught
    | _ => .error .uncaught

/-- Body of the `try` block of `get_series_info`: the chained key accesses
followed by the extraction loop.  Iterating `series_configs` requires an
iterable: a list iterates its elements; an empty dict or empty string
iterates nothing; a nonempty dict or string yields strings on which
`config.get` raises; other values are not iterable. -/
def get_series_info_core (data : JVal) (chart_id : String) :
    Except PyErr (List (JVal × List JVal)) := do
  let dataField ← subscriptS data "data"
  let chart_data ← subscriptS dataField ("c:" ++ chart_id)
  let info ← subscriptS chart_data "info"
  let chart_config ← subscriptS info "chart_config"
  let series_configs ← subscriptS chart_config "seriesConfigs"
  let series_data ← subscriptS chart_data "series"
  match series_configs with
  | .arr cfgs => seriesLoop cfgs series_data 0
  | .obj [] => .ok []
  | .str s => if s = "" then .ok [] else .error .uncaught
  | _ => .error .uncaught

/-- Outcome of `get_series_info`: a normal return, a caught
`KeyError`/`IndexError` (the function reports the parse failure via
`st.error` and returns `[]`), or an exception escaping the function. -/
inductive SeriesResult where
  | ok (rows : List (JVal × List JVal))
  | parseError
  | uncaught

/-- `get_series_info` from src/main.py: run the try block and catch
`KeyError`/`IndexError` only. -/
def get_series_info (data : JVal) (chart_id : String) : SeriesResult :=
  match get_series_info_core data chart_id with
  | .ok rows => .ok rows
  | .error .keyIndexErr => .parseError
  | .error .uncaught => .uncaught

/-- The list a caller of `get_series_info` receives: the computed rows on a
normal return, `[]` when the parse failure was caught and reported, nothing
when an exception escapes. -/
def seriesRowsReturned : SeriesResult → Option (List (JVal × List JVal))
  | .ok rows => some rows
  | .parseError => some []
  | .uncaught => none

/-- Pythons `repr` on JSON values (used by `str` on lists and dicts).
Strings are rendered with single quotes; the escaping Python applies to
quotes inside a string is not modelled (no claim involves such a value). -/
def pyRepr : JVal → String
  | .null => "None"
  | .bool true => "True"
  | .bool false => "False"
  | .num n => toString n
  | .str s => "\x27" ++ s ++ "\x27"
  | .arr xs =>
    "[" ++ String.intercalate ", " (xs.attach.map (fun x => pyRepr x.1)) ++ "]"
  | .obj fs =>
    "\x7b" ++
      String.intercalate ", "
        (fs.attach.map (fun kv => "\x27" ++ kv.1.1 ++ "\x27: " ++ pyRepr kv.1.2)) ++
      "\x7d"
decreasing_by
· simp only [JVal.arr.sizeOf_spec]
  have := List.sizeOf_lt_of_mem x.2
  omega
· simp only [JVal.obj.sizeOf_spec]
  have h1 := List.sizeOf_lt_of_mem kv.2
  have h2 : sizeOf kv.1.2 < sizeOf kv.1 := by
    obtain ⟨k, v⟩ := kv.1
    simp only [Prod.mk.sizeOf_spec]
    omega
  omega

/-- Pythons `str` applied in an f-string: strings render as themselves,
scalars as their Python text, lists and dicts via `repr`. -/
def pyStr : JVal → String
  | .null => "None"
  | .bool true => "True"
  | .bool false => "False"
  | .num n => toString n
  | .str s => s
  | .arr xs => pyRepr (.arr xs)
  | .obj fs => pyRepr (.obj fs)

/-- The bullet lines built by the loop of `format_series_info`: an arrow
line for two or more values, a single-value line for one, nothing for
zero. -/
def formatLines : List (JVal × List JVal) → List String
  | [] => []
  | (name, values) :: rest =>
    if 2 ≤ values.length then
      ("- " ++ pyStr name ++ ": " ++ pyStr (values.getD 0 .null) ++ " -> " ++
        pyStr (values.getD 1 .null)) :: formatLines rest
    else if values.length = 1 then
      ("- " ++ pyStr name ++ ": " ++ pyStr (values.getD 0 .null)) :: formatLines rest
    else
      formatLines rest

/-- `format_series_info` from src/main.py: header line then the bullet
lines, joined with newlines. -/
def format_series_info (series_info : List (JVal × List JVal)) : String :=
  String.intercalate "\n" ("Chart Data (Latest Two Values):" :: formatLines series_info)

/-- One transcript entry, Pythons `{"role": ..., "content": ...}` dict. -/
structure Msg where
  role : String
  content : String
deriving DecidableEq

/-- The per-session Streamlit state of `main`: chat transcript, loaded chart
id, extracted series info and fetched image bytes. -/
structure SessionState where
  messages : List Msg
  chart_id : Option String
  series_info : List (JVal × List JVal)
  image_bytes : Option (List Nat)

/-- The initial session state set up by `main`. -/
def initialState : SessionState :=
  { messages := [], chart_id := none, series_info := [], image_bytes := none }

/-- Python truthiness of a JSON value (`if data:`). -/
def pyTruthy : JVal → Bool
  | .null => false
  | .bool b => b
  | .num n => n != 0
  | .str s => s != ""
  | .arr l => !l.isEmpty
  | .obj f => !f.isEmpty

/-- Python truthiness of an optional string
(`if not st.session_state.chart_id:`). -/
def truthyOptStr : Option String → Bool
  | none => false
  | some s => s != ""

/-- The "Load Chart" button handler of `main`.  The fetch results enter as
parameters: `fetchData` is what `fetch_chart_data` returned (`none` on a
reported transport failure), `fetchImage` what `fetch_image_bytes` returned.
Result `none` models an exception escaping the handler (an uncaught error
inside `get_series_info`); otherwise the updated session state.  Per source:
the chart id and emptied transcript are stored first, `series_info` is
assigned only under `if data:`, and `image_bytes` is assigned
unconditionally. -/
def loadChart (s : SessionState) (url : String) (fetchData : Option JVal)
    (fetchImage : Option (List Nat)) : Option SessionState :=
  match extract_chart_id url with
  | some cid =>
    if cid == "" then some s
    else
      let s1 : SessionState := { s with chart_id := some cid, messages := [] }
      match fetchData with
      | some data =>
        if pyTruthy data then
          match get_series_info data cid with
          | .ok rows => some { s1 with series_info := rows, image_bytes := fetchImage }
          | .parseError => some { s1 with series_info := [], image_bytes := fetchImage }
          | .uncaught => none
        else some { s1 with image_bytes := fetchImage }
      | none => some { s1 with image_bytes := fetchImage }
  | none => some s

/-- The chat-input handler of `main`.  `prompt` is the submitted text (`""`
when nothing was submitted, which Python treats as falsy), `outcome` the
result of the guarded analysis call (`.error e` when building the client or
`analyze_chart` raised an exception rendered as `e`).  The returned boolean
records whether control reached the guarded analysis call at all; when the
chart guard fails, `main` returns before the chat input and `analyze_chart`
is never invoked. -/
def submitQuestion (s : SessionState) (prompt : String)
    (outcome : Except String String) : SessionState × Bool :=
  if truthyOptStr s.chart_id then
    if prompt == "" then (s, false)
    else
      let s1 : SessionState := { s with messages := s.messages ++ [{ role := "user", content := prompt }] }
      match outcome with
      | .ok text =>
        ({ s1 with messages := s1.messages ++ [{ role := "assistant", content := text }] }, true)
      | .error e =>
        ({ s1 with messages := s1.messages ++ [{ role := "assistant", content := "Error generating response: " ++ e }] }, true)
  else (s, false)

/-- A series-config entry: a dict with a `name_tc` key when a localized
name is present, an empty dict otherwise. -/
def mkCfg : Option String → JVal
  | some s => .obj [("name_tc", .str s)]
  | none => .obj []

/-- A well-formed chart-data payload for chart `cid`, with the config list
given by the optional localized names and the parallel value lists, in the
upstream shape
`{"data": {"c:<id>": {"info": {"chart_config": {"seriesConfigs": [...]}}, "series": [...]}}}`. -/
def mkPayload (cid : String) (cfgs : List (Option String)) (vals : List (List JVal)) : JVal :=
  .obj [("data", .obj [("c:" ++ cid, .obj [
    ("info", .obj [("chart_config", .obj [("seriesConfigs", .arr (cfgs.map mkCfg))])]),
    ("series", .arr (vals.map .arr))])])]

/-- The same payload with the `series` key missing: the malformed payload
named by the spec. -/
def mkPayloadNoSeries (cid : String) (cfgs : List (Option String)) : JVal :=
  .obj [("data", .obj [("c:" ++ cid, .obj [
    ("info", .obj [("chart_config", .obj [("seriesConfigs", .arr (cfgs.map mkCfg))])])])])]

/-- Modelled from the spec: the display name of series `i`, the localized
name when present, else `Series <position+1>`. -/
def specName (o : Option String) (i : Nat) : JVal :=
  match o with
  | some s => .str s
  | none => .str ("Series " ++ toString (i + 1))

/-- Modelled from the spec: the last two values of a series in upstream
order, or whatever fewer values are present. -/
def specLastTwo (l : List JVal) : List JVal := l.drop (l.length - 2)

/-- Modelled from the spec: the expected extraction result — one row per
config index that has a corresponding value list, in config order. -/
def specRows (cfgs : List (Option String)) (vals : List (List JVal)) :
    List (JVal × List JVal) :=
  (List.range (min cfgs.length vals.length)).map
    (fun i => (specName (cfgs.getD i none) i, specLastTwo (vals.getD i [])))

/-- Modelled from the spec: the bullet rendered for one series summary — an
arrow line for two values, a single-value line for one, nothing for zero. -/
def specBullet : JVal × List JVal → Option String
  | (name, [v0, v1]) => some ("- " ++ pyStr name ++ ": " ++ pyStr v0 ++ " -> " ++ pyStr v1)
  | (name, [v0]) => some ("- " ++ pyStr name ++ ": " ++ pyStr v0)
  | (_, _) => none

/-- Modelled from the spec: the image-path directory segment keys on the
last three digits of the identifier. -/
def specLastThree (s : List Char) : List Char := s.drop (s.length - 3)

/-- Modelled from the spec: left-zero-padding to width 3. -/
def specZeroPad3 (s : List Char) : List Char := List.replicate (3 - s.length) '0' ++ s

/-- An ASCII digit is not a sign character. -/
theorem isDigit_not_sign {c : Char} (h : c.isDigit = true) : ¬ (c = '+' ∨ c = '-') := by
  rintro (rfl | rfl) <;> simp [Char.isDigit] at h

/-- On a string of digits, `zfill` is plain left-zero-padding. -/
theorem pyZfill_digits (l : List Char) (h : ∀ c ∈ l, c.isDigit = true) :
    pyZfill 3 l = specZeroPad3 l := by
  cases l with
  | nil => simp [pyZfill, specZeroPad3]
  | cons c rest =>
    have hc := h c (by simp)
    simp [pyZfill, specZeroPad3, isDigit_not_sign hc]

/-- Claim C5: for every digit-string identifier, the preview image URL uses
as directory segment the last three digits left-zero-padded to exactly width
3 and the file name `<identifier>-tc.png`; the construction is pure. -/
theorem get_preview_image_url_spec (cid : String) (h : ∀ c ∈ cid.data, c.isDigit = true) :
    get_preview_image_url cid =
      "https://cdn.macromicro.me/files/charts/" ++
        String.mk (specZeroPad3 (specLastThree cid.data)) ++ "/" ++ cid ++ "-tc.png" ∧
    (specZeroPad3 (specLastThree cid.data)).length = 3 := by
  constructor
  · have hsub : ∀ c ∈ cid.data.drop (cid.data.length - 3), c.isDigit = true :=
      fun c hc => h c ((List.drop_sublist _ _).mem hc)
    unfold get_preview_image_url
    rw [pyZfill_digits _ hsub]
    rfl
  · simp only [specZeroPad3, specLastThree, List.length_append, List.length_replicate,
      List.length_drop]
    omega

/-- Witness for C5 at identifier `"7"`. -/
theorem get_preview_image_url_spec_witness :
    (∀ c ∈ ("7" : String).data, c.isDigit = true) ∧
    (get_preview_image_url "7" =
      "https://cdn.macromicro.me/files/charts/" ++
        String.mk (specZeroPad3 (specLastThree ("7" : String).data)) ++ "/" ++ "7" ++ "-tc.png" ∧
    (specZeroPad3 (specLastThree ("7" : String).data)).length = 3) :=
  ⟨by decide, get_preview_image_url_spec "7" (by decide)⟩

/-- Claim C7: in every session state whose chart identifier is absent, the
question-submission path is rejected at the guard and the analysis call site
is never reached; the state is unchanged. -/
theorem submitQuestion_rejected_when_no_chart (s : SessionState) (prompt : String)
    (outcome : Except String String) (h : s.chart_id = none) :
    submitQuestion s prompt outcome = (s, false) := by
  simp [submitQuestion, truthyOptStr, h]

/-- Witness for C7 at the initial session state. -/
theorem submitQuestion_rejected_when_no_chart_witness :
    initialState.chart_id = none ∧
    submitQuestion initialState "question" (Except.ok "answer") = (initialState, false) :=
  ⟨rfl, submitQuestion_rejected_when_no_chart initialState "question" (Except.ok "answer") rfl⟩

/-- Claim C8: for every question submitted while a chart is loaded, a normal
analysis result appends a user turn and one assistant turn, and a raised
exception is caught and appends a user turn and one visible error turn
instead; nothing propagates and the rest of the state (in particular the
loaded chart) is unchanged. -/
theorem submitQuestion_appends_two_turns (s : SessionState) (cid prompt : String)
    (h1 : s.chart_id = some cid) (h2 : ¬ cid = "") (h3 : ¬ prompt = "") :
    (∀ r, submitQuestion s prompt (Except.ok r) =
      ({ s with messages := s.messages ++
        [{ role := "user", content := prompt }, { role := "assistant", content := r }] }, true)) ∧
    (∀ e, submitQuestion s prompt (Except.error e) =
      ({ s with messages := s.messages ++
        [{ role := "user", content := prompt },
         { role := "assistant", content := "Error generating response: " ++ e }] }, true)) := by
  constructor <;> intro x <;>
    simp [submitQuestion, truthyOptStr, h1, h2, h3]

/-- Witness for C8: a caught analysis exception becomes an error turn. -/
theorem submitQuestion_appends_two_turns_witness :
    ({ messages := [], chart_id := some "444", series_info := [], image_bytes := none } : SessionState).chart_id = some "444" ∧
    submitQuestion { messages := [], chart_id := some "444", series_info := [], image_bytes := none } "why" (Except.error "boom") =
      ({ ({ messages := [], chart_id := some "444", series_info := [], image_bytes := none } : SessionState) with
          messages := ({ messages := [], chart_id := some "444", series_info := [], image_bytes := none } : SessionState).messages ++
            [{ role := "user", content := "why" },
             { role := "assistant", content := "Error generating response: " ++ "boom" }] }, true) :=
  ⟨rfl, (submitQuestion_appends_two_turns
      { messages := [], chart_id := some "444", series_info := [], image_bytes := none }
      "444" "why" rfl (by decide) (by decide)).2 "boom"⟩

/-- The bullet lines of `format_series_info` agree with the spec-modelled
per-series bullet whenever every summary has at most two values. -/
theorem formatLines_eq_filterMap (rows : List (JVal × List JVal))
    (h : ∀ p ∈ rows, p.2.length ≤ 2) :
    formatLines rows = rows.filterMap specBullet := by
  induction rows with
  | nil => rfl
  | cons p rest ih =>
    obtain ⟨name, values⟩ := p
    have hrest : ∀ q ∈ rest, q.2.length ≤ 2 := fun q hq => h q (by simp [hq])
    have hv : values.length ≤ 2 := h (name, values) (by simp)
    match values with
    | [] => simp [formatLines, specBullet, List.filterMap_cons, ih hrest]
    | [v0] => simp [formatLines, specBullet, List.filterMap_cons, ih hrest]
    | [v0, v1] => simp [formatLines, specBullet, List.filterMap_cons, ih hrest]
    | v0 :: v1 :: v2 :: vs => simp at hv

/-- Claim C9: for every series summary list (each summary holding at most
two values), the formatted block is the fixed header line followed by one
bullet per series, `- <name>: <v0> -> <v1>` for two values, `- <name>: <v0>`
for one, zero-value series omitted, in input order. -/
theorem format_series_info_spec (rows : List (JVal × List JVal))
    (h : ∀ p ∈ rows, p.2.length ≤ 2) :
    format_series_info rows =
      String.intercalate "\n"
        ("Chart Data (Latest Two Values):" :: rows.filterMap specBullet) := by
  unfold format_series_info
  rw [formatLines_eq_filterMap rows h]

/-- Witness for C9 on a three-series summary list. -/
theorem format_series_info_spec_witness :
    (∀ p ∈ ([(JVal.str "A", [JVal.num 20, JVal.num 30]), (JVal.str "B", [JVal.num 5]),
        (JVal.str "C", [])] : List (JVal × List JVal)), p.2.length ≤ 2) ∧
    format_series_info
        [(JVal.str "A", [JVal.num 20, JVal.num 30]), (JVal.str "B", [JVal.num 5]),
         (JVal.str "C", [])] =
      String.intercalate "\n"
        ("Chart Data (Latest Two Values):" ::
          ([(JVal.str "A", [JVal.num 20, JVal.num 30]), (JVal.str "B", [JVal.num 5]),
            (JVal.str "C", [])] : List (JVal × List JVal)).filterMap specBullet) :=
  ⟨by intro p hp; fin_cases hp <;> simp,
    format_series_info_spec _ (by intro p hp; fin_cases hp <;> simp)⟩

/-- Claim C4: whenever the try block of `get_series_info` raises a
`KeyError` or `IndexError` — in particular for every payload whose per-chart
object is missing the `series` key — the exception is caught, the parse
failure is reported and the caller receives an empty list; nothing escapes
the function. -/
theorem get_series_info_parse_failure :
    (∀ data cid, get_series_info_core data cid = Except.error PyErr.keyIndexErr →
      get_series_info data cid = SeriesResult.parseError ∧
      seriesRowsReturned (get_series_info data cid) = some []) ∧
    ∀ cid cfgs, get_series_info (mkPayloadNoSeries cid cfgs) cid = SeriesResult.parseError := by
  constructor
  · intro data cid h
    simp [get_series_info, h, seriesRowsReturned]
  · intro cid cfgs
    simp [get_series_info, get_series_info_core, mkPayloadNoSeries, subscriptS, lookupField,
      Bind.bind, Except.bind]

/-- Witness for C4 at a concrete payload missing the `series` key. -/
theorem get_series_info_parse_failure_witness :
    get_series_info_core (mkPayloadNoSeries "1" [some "A"]) "1" = Except.error PyErr.keyIndexErr ∧
    get_series_info (mkPayloadNoSeries "1" [some "A"]) "1" = SeriesResult.parseError ∧
    seriesRowsReturned (get_series_info (mkPayloadNoSeries "1" [some "A"]) "1") = some [] :=
  ⟨rfl, (get_series_info_parse_failure.1 (mkPayloadNoSeries "1" [some "A"]) "1" rfl).1,
    (get_series_info_parse_failure.1 (mkPayloadNoSeries "1" [some "A"]) "1" rfl).2⟩

/-- A session state that already holds a loaded chart with nonempty series
info, used to exhibit what a reload does to the previous artifacts. -/
def statePrev : SessionState :=
  { messages := [{ role := "user", content := "old question" }],
    chart_id := some "444",
    series_info := [(.str "Old", [.num 1])],
    image_bytes := some [0] }

/-- Counterexample to C2 as stated: loading a new chart URL while the data
fetch fails keeps the previous charts series summaries in the snapshot —
the ChartSnapshot is not wholly replaced regardless of fetch success. -/
theorem loadChart_not_whole_replacement :
    extract_chart_id "https://www.macromicro.me/charts/555/new-chart" = some "555" ∧
    loadChart statePrev "https://www.macromicro.me/charts/555/new-chart" none none =
      some { messages := [], chart_id := some "555",
             series_info := [(.str "Old", [.num 1])], image_bytes := none } ∧
    ([((.str "Old" : JVal), [JVal.num 1])] : List (JVal × List JVal)) ≠ [] :=
  ⟨by decide, by rfl, List.cons_ne_nil _ _⟩

/-- Claim C2 (amended): on every Load Chart action with an extractable
identifier, the identifier and image bytes are replaced and the transcript
is reset to empty; the series summaries are replaced only when the data
fetch returns a truthy payload — on a failed or falsy data fetch the
previous charts series summaries persist, and on a caught parse failure
they are replaced by the empty list. -/
theorem loadChart_replacement_amended (s : SessionState) (url cid : String)
    (img : Option (List Nat)) (h : extract_chart_id url = some cid) (hne : ¬ cid = "") :
    loadChart s url none img =
      some { messages := [], chart_id := some cid,
             series_info := s.series_info, image_bytes := img } ∧
    (∀ d, pyTruthy d = false →
      loadChart s url (some d) img =
        some { messages := [], chart_id := some cid,
               series_info := s.series_info, image_bytes := img }) ∧
    (∀ d rows, pyTruthy d = true → get_series_info d cid = SeriesResult.ok rows →
      loadChart s url (some d) img =
        some { messages := [], chart_id := some cid,
               series_info := rows, image_bytes := img }) ∧
    (∀ d, pyTruthy d = true → get_series_info d cid = SeriesResult.parseError →
      loadChart s url (some d) img =
        some { messages := [], chart_id := some cid,
               series_info := [], image_bytes := img }) := by
  refine ⟨?_, ?_, ?_, ?_⟩
  · simp [loadChart, h, hne]
  · intro d hd
    simp [loadChart, h, hne, hd]
  · intro d rows hd hrows
    simp [loadChart, h, hne, hd, hrows]
  · intro d hd hrows
    simp [loadChart, h, hne, hd, hrows]

/-- Witness for the amended C2: a reload whose data fetch failed keeps the
previous series summaries while replacing id, image and transcript. -/
theorem loadChart_replacement_amended_witness :
    extract_chart_id "https://www.macromicro.me/charts/555/new-chart" = some "555" ∧
    ¬ ("555" : String) = "" ∧
    loadChart statePrev "https://www.macromicro.me/charts/555/new-chart" none (some [7]) =
      some { messages := [], chart_id := some "555",
             series_info := statePrev.series_info, image_bytes := some [7] } :=
  ⟨by decide, by decide,
    (loadChart_replacement_amended statePrev "https://www.macromicro.me/charts/555/new-chart"
      "555" (some [7]) (by decide) (by decide)).1⟩

/-- Claim C6: loading the example URL sets identifier 444 and resets the
transcript, and the two fetch paths degrade independently — a failed data
fetch still stores the fetched image bytes, and a failed image fetch still
stores the extracted series info. -/
theorem loadChart_independent_paths (s : SessionState) :
    (∀ img, loadChart s "https://www.macromicro.me/charts/444/us-mm-gspc" none img =
      some { messages := [], chart_id := some "444",
             series_info := s.series_info, image_bytes := img }) ∧
    (∀ d rows, pyTruthy d = true → get_series_info d "444" = SeriesResult.ok rows →
      loadChart s "https://www.macromicro.me/charts/444/us-mm-gspc" (some d) none =
        some { messages := [], chart_id := some "444",
               series_info := rows, image_bytes := none }) := by
  have h : extract_chart_id "https://www.macromicro.me/charts/444/us-mm-gspc" = some "444" := by
    decide
  constructor
  · intro img
    simp [loadChart, h]
  · intro d rows hd hrows
    simp [loadChart, h, hd, hrows]

/-- Witness for C6: both degraded loads at concrete inputs. -/
theorem loadChart_independent_paths_witness :
    (pyTruthy (mkPayload "444" [some "A"] [[JVal.num 1, JVal.num 2]]) = true ∧
      get_series_info (mkPayload "444" [some "A"] [[JVal.num 1, JVal.num 2]]) "444" =
        SeriesResult.ok [(.str "A", [.num 1, .num 2])]) ∧
    loadChart statePrev "https://www.macromicro.me/charts/444/us-mm-gspc" none (some [9]) =
      some { messages := [], chart_id := some "444",
             series_info := statePrev.series_info, image_bytes := some [9] } ∧
    loadChart statePrev "https://www.macromicro.me/charts/444/us-mm-gspc"
        (some (mkPayload "444" [some "A"] [[JVal.num 1, JVal.num 2]])) none =
      some { messages := [], chart_id := some "444",
             series_info := [(.str "A", [.num 1, .num 2])], image_bytes := none } :=
  ⟨⟨rfl, rfl⟩, (loadChart_independent_paths statePrev).1 (some [9]),
    (loadChart_independent_paths statePrev).2
      (mkPayload "444" [some "A"] [[JVal.num 1, JVal.num 2]])
      [(.str "A", [.num 1, .num 2])] rfl rfl⟩

/-- The latest-two conditional of the source equals the unconditional
drop-all-but-two. -/
theorem lastTwo_eq_spec (l : List JVal) :
    (if 2 ≤ l.length then l.drop (l.length - 2) else l) = specLastTwo l := by
  by_cases h : 2 ≤ l.length
  · simp [h, specLastTwo]
  · have h0 : l.length - 2 = 0 := by omega
    simp [h, specLastTwo, h0]

/-- Splitting a range-map at a successor bound. -/
theorem map_range_min_succ {α : Type} (f : Nat → α) (n m k : Nat) (hk : k < m) :
    (List.range (min (n + 1) (m - k))).map f =
      f 0 :: (List.range (min n (m - (k + 1)))).map (fun j => f (j + 1)) := by
  have h1 : m - k = (m - (k + 1)) + 1 := by omega
  rw [h1, Nat.succ_min_succ, List.range_succ_eq_map]
  simp [List.map_map, Function.comp]

/-- Behavior of the extraction loop on a well-formed payload, generalized
over the running index: one row per config index below the number of value
lists, in config order, each holding the last two values. -/
theorem seriesLoop_mkPayload (cfgs : List (Option String)) :
    ∀ (k : Nat) (vals : List (List JVal)),
      seriesLoop (cfgs.map mkCfg) (.arr (vals.map .arr)) k =
        .ok ((List.range (min cfgs.length (vals.length - k))).map
          (fun j => (specName (cfgs.getD j none) (k + j),
                     specLastTwo (vals.getD (k + j) [])))) := by
  induction cfgs with
  | nil =>
    intro k vals
    simp [seriesLoop]
  | cons o cfgs ih =>
    intro k vals
    by_cases hk : k < vals.length
    · have hget : vals.getD k [] = vals[k] := List.getD_eq_getElem vals [] hk
      have htail :
          (fun j => (specName ((o :: cfgs).getD (j + 1) none) (k + (j + 1)),
            specLastTwo (vals.getD (k + (j + 1)) []))) =
          (fun j => (specName (cfgs.getD j none) ((k + 1) + j),
            specLastTwo (vals.getD ((k + 1) + j) []))) := by
        funext j
        rw [List.getD_cons_succ]
        have harith : k + (j + 1) = k + 1 + j := by omega
        rw [harith]
      simp only [List.length_cons]
      rw [map_range_min_succ _ cfgs.length vals.length k hk]
      cases o with
      | some nm =>
        simp only [List.map_cons, mkCfg, seriesLoop, lookupField, List.length_map,
          List.get_eq_getElem, List.getElem_map, hk, dite_true, if_pos rfl, Option.getD_some,
          lastTwo_eq_spec, ih (k + 1) vals, List.getD_cons_zero, List.getD_cons_succ]
        simp [specName, hget, htail, Nat.add_zero]
        refine ⟨by simp [List.getElem?_eq_getElem hk], ?_⟩
        intro a ha1 ha2
        have h1 : k + 1 + a = k + (a + 1) := by omega
        rw [h1]
        exact ⟨rfl, rfl⟩
      | none =>
        simp only [List.map_cons, mkCfg, seriesLoop, lookupField, List.length_map,
          List.get_eq_getElem, List.getElem_map, hk, dite_true, Option.getD_none,
          lastTwo_eq_spec, ih (k + 1) vals, List.getD_cons_zero, List.getD_cons_succ]
        simp [specName, hget, htail, Nat.add_zero]
        refine ⟨by simp [List.getElem?_eq_getElem hk], ?_⟩
        intro a ha1 ha2
        have h1 : k + 1 + a = k + (a + 1) := by omega
        rw [h1]
        exact ⟨rfl, rfl⟩
    · have h0 : vals.length - k = 0 := by omega
      have h1 : vals.length - (k + 1) = 0 := by omega
      cases o with
      | some nm =>
        simp [seriesLoop, mkCfg, hk, ih (k + 1) vals, h0, h1]
      | none =>
        simp [seriesLoop, mkCfg, hk, ih (k + 1) vals, h0, h1]

/-- On a well-formed payload, `get_series_info` returns exactly the
spec-modelled rows. -/
theorem get_series_info_mkPayload (cid : String) (cfgs : List (Option String))
    (vals : List (List JVal)) :
    get_series_info (mkPayload cid cfgs vals) cid = SeriesResult.ok (specRows cfgs vals) := by
  have hloop := seriesLoop_mkPayload cfgs 0 vals
  unfold get_series_info get_series_info_core mkPayload
  simp [Bind.bind, Except.bind, subscriptS, lookupField, hloop, specRows]

/-- Claim C3: for every well-formed payload the extraction returns, per
series, the last two values in upstream order (two or more values), the
single value (one value), or the empty sequence (no values); a zero-value
series stays in the returned list but is omitted from the formatted text;
no reordering is performed. -/
theorem get_series_info_last_two (cid : String) (cfgs : List (Option String))
    (vals : List (List JVal)) :
    get_series_info (mkPayload cid cfgs vals) cid = SeriesResult.ok (specRows cfgs vals) ∧
    get_series_info
        (mkPayload cid [some "A", some "B", some "C"]
          [[JVal.num 10, JVal.num 20, JVal.num 30], [JVal.num 5], []]) cid =
      SeriesResult.ok
        [(JVal.str "A", [JVal.num 20, JVal.num 30]), (JVal.str "B", [JVal.num 5]),
         (JVal.str "C", [])] ∧
    formatLines
        [(JVal.str "A", [JVal.num 20, JVal.num 30]), (JVal.str "B", [JVal.num 5]),
         (JVal.str "C", [])] =
      ["- A: 20 -> 30", "- B: 5"] :=
  ⟨get_series_info_mkPayload cid cfgs vals,
    get_series_info_mkPayload cid [some "A", some "B", some "C"]
      [[JVal.num 10, JVal.num 20, JVal.num 30], [JVal.num 5], []],
    by rfl⟩

/-- Claim C10: for every well-formed payload the returned list has exactly
`min (number of configs) (number of value lists)` entries, in config order,
never more than the config list, and every entry holds at most two
values. -/
theorem get_series_info_row_bounds (cid : String) (cfgs : List (Option String))
    (vals : List (List JVal)) :
    get_series_info (mkPayload cid cfgs vals) cid = SeriesResult.ok (specRows cfgs vals) ∧
    (specRows cfgs vals).length = min cfgs.length vals.length ∧
    (specRows cfgs vals).length ≤ cfgs.length ∧
    ∀ p ∈ specRows cfgs vals, p.2.length ≤ 2 := by
  refine ⟨get_series_info_mkPayload cid cfgs vals, ?_, ?_, ?_⟩
  · simp [specRows]
  · simp [specRows]
  · intro p hp
    simp only [specRows, List.mem_map, List.mem_range] at hp
    obtain ⟨j, hj, rfl⟩ := hp
    simp [specLastTwo]
    omega

/-- Substring occurrence test: does `needle` start at some position of
`hay`? -/
def occursIn (needle : List Char) : List Char → Bool
  | [] => needle.isEmpty
  | c :: rest => needle.isPrefixOf (c :: rest) || occursIn needle rest

/-- A search over positions returns `none` when the attempt fails at every
suffix. -/
theorem searchWith_eq_none (m : List Char → Option (List Char)) (hay : List Char)
    (h : ∀ s, s <:+ hay → m s = none) : searchWith m hay = none := by
  induction hay with
  | nil => simpa [searchWith] using h [] List.nil_suffix
  | cons c cs ih =>
    have hc := h (c :: cs) List.suffix_rfl
    have hrest : ∀ s, s <:+ cs → m s = none :=
      fun s hs => h s (hs.trans (List.suffix_cons c cs))
    simp [searchWith, hc, ih hrest]

/-- A successful attempt at the head position is returned by the search. -/
theorem searchWith_cons_some (m : List Char → Option (List Char)) (c : Char)
    (cs r : List Char) (h : m (c :: cs) = some r) : searchWith m (c :: cs) = some r := by
  simp [searchWith, h]

/-- A pattern that matches as a prefix of some suffix occurs in the
string. -/
theorem occursIn_of_suffix (needle s hay : List Char) (hs : s <:+ hay)
    (hp : needle.isPrefixOf s = true) : occursIn needle hay = true := by
  induction hay with
  | nil =>
    have : s = [] := List.eq_nil_of_suffix_nil hs
    subst this
    cases needle with
    | nil => rfl
    | cons a as => simp [List.isPrefixOf] at hp
  | cons c cs ih =>
    rcases List.suffix_cons_iff.1 hs with h1 | h2
    · subst h1
      simp [occursIn, hp]
    · simp [occursIn, ih h2]

/-- When the charts literal occurs nowhere, the first `re.search` fails. -/
theorem searchCharts_none (hay : List Char) (h : occursIn chartsPat hay = false) :
    searchWith matchCharts hay = none := by
  apply searchWith_eq_none
  intro s hs
  unfold matchCharts
  by_cases hp : chartsPat.isPrefixOf s = true
  · rw [occursIn_of_suffix chartsPat s hay hs hp] at h
    cases h
  · simp [Bool.not_eq_true] at hp
    simp [hp]

/-- Skipping positions whose attempts fail in front of a tail. -/
theorem searchWith_skip (m : List Char → Option (List Char)) (tail : List Char) :
    ∀ pre : List Char, (∀ s, s <:+ pre → s ≠ [] → m (s ++ tail) = none) →
      searchWith m (pre ++ tail) = searchWith m tail := by
  intro pre
  induction pre with
  | nil => intro _; rfl
  | cons c pre ih =>
    intro h
    have hc : m (c :: (pre ++ tail)) = none := by
      have hc0 := h (c :: pre) List.suffix_rfl (List.cons_ne_nil c pre)
      rwa [List.cons_append] at hc0
    have hrest : ∀ s, s <:+ pre → s ≠ [] → m (s ++ tail) = none :=
      fun s hs hne => h s (hs.trans (List.suffix_cons c pre)) hne
    have hstep : searchWith m (c :: (pre ++ tail)) =
        match m (c :: (pre ++ tail)) with
        | some r => some r
        | none => searchWith m (pre ++ tail) := rfl
    rw [List.cons_append, hstep, hc]
    exact ih hrest

/-- The collections attempt fails at any position not starting with the
letter m. -/
theorem matchCollections_head (c : Char) (s : List Char) (h : ¬ c = 'm') :
    matchCollections (c :: s) = none := by
  have hpat : collectionsPat = 'm' :: "acromicro.me/collections/".data := rfl
  have : collectionsPat.isPrefixOf (c :: s) = false := by
    rw [hpat]
    simp [List.isPrefixOf, beq_eq_false_iff_ne]
    intro hmc
    exact absurd hmc.symm h
  simp [matchCollections, this]

/-- A run of characters satisfying the predicate followed by a stopper
splits `takeWhile`/`dropWhile` exactly at the stopper. -/
theorem takeWhile_append_stop (p : Char → Bool) :
    ∀ (l : List Char) (c : Char) (r : List Char), (∀ a ∈ l, p a = true) → p c = false →
      ((l ++ c :: r).takeWhile p = l ∧ (l ++ c :: r).dropWhile p = c :: r) := by
  intro l
  induction l with
  | nil =>
    intro c r _ hc
    simp [List.takeWhile, List.dropWhile, hc]
  | cons a l ih =>
    intro c r hl hc
    have ha : p a = true := hl a (by simp)
    have hrec := ih c r (fun b hb => hl b (by simp [hb])) hc
    simp [List.takeWhile, List.dropWhile, ha, hrec.1, hrec.2]

/-- A list is a prefix (in the boolean sense) of itself extended by any
tail. -/
theorem isPrefixOf_append_self (l t : List Char) : l.isPrefixOf (l ++ t) = true :=
  List.isPrefixOf_iff_prefix.2 (List.prefix_append l t)

/-- The collections pattern matched right at its literal: the two digit
groups and the slash-free slug are scanned deterministically and the second
digit group is captured. -/
theorem matchCollections_capture (d1 slug d2 rest : List Char)
    (hd1n : d1 ≠ []) (hd1 : ∀ c ∈ d1, isDig c = true)
    (hsn : slug ≠ []) (hs : ∀ c ∈ slug, (c == '/') = false)
    (hd2n : d2 ≠ []) (hd2 : ∀ c ∈ d2, isDig c = true) :
    matchCollections
      (collectionsPat ++ (d1 ++ '/' :: (slug ++ '/' :: (d2 ++ '/' :: rest)))) = some d2 := by
  have h1 := takeWhile_append_stop isDig d1 '/' (slug ++ '/' :: (d2 ++ '/' :: rest)) hd1 (by decide)
  have h2 := takeWhile_append_stop (fun c => !(c == '/')) slug '/' (d2 ++ '/' :: rest)
      (fun a ha => by simp [hs a ha]) (by decide)
  have h3 := takeWhile_append_stop isDig d2 '/' rest hd2 (by decide)
  have e1 := List.isEmpty_eq_false.2 hd1n
  have e2 := List.isEmpty_eq_false.2 hsn
  have e3 := List.isEmpty_eq_false.2 hd2n
  unfold matchCollections
  simp [isPrefixOf_append_self, List.drop_left, h1.1, h1.2, h2.1, h2.2, h3.1, e1, e2, e3]

/-- The extraction on a collections URL, at the level of character lists:
when the charts literal occurs nowhere, the second digit group is
returned. -/
theorem extractChartIdL_collections (d1 slug d2 rest : List Char)
    (hd1n : d1 ≠ []) (hd1 : ∀ c ∈ d1, isDig c = true)
    (hsn : slug ≠ []) (hs : ∀ c ∈ slug, (c == '/') = false)
    (hd2n : d2 ≠ []) (hd2 : ∀ c ∈ d2, isDig c = true)
    (hno : occursIn chartsPat
      ("https://www.".data ++
        (collectionsPat ++ (d1 ++ '/' :: (slug ++ '/' :: (d2 ++ '/' :: rest))))) = false) :
    extractChartIdL
      ("https://www.".data ++
        (collectionsPat ++ (d1 ++ '/' :: (slug ++ '/' :: (d2 ++ '/' :: rest))))) = some d2 := by
  have hmnot : ('m' : Char) ∉ "https://www.".data := by decide
  have hskip := searchWith_skip matchCollections
    (collectionsPat ++ (d1 ++ '/' :: (slug ++ '/' :: (d2 ++ '/' :: rest))))
    "https://www.".data
    (by
      intro s hsuf hne
      cases s with
      | nil => exact absurd rfl hne
      | cons a s2 =>
        have ham : ¬ a = 'm' := by
          intro hmm
          exact hmnot (hmm ▸ hsuf.subset (List.mem_cons_self a s2))
        rw [List.cons_append]
        exact matchCollections_head a _ ham)
  have hcap := matchCollections_capture d1 slug d2 rest hd1n hd1 hsn hs hd2n hd2
  have hcons : collectionsPat ++ (d1 ++ '/' :: (slug ++ '/' :: (d2 ++ '/' :: rest))) =
      'm' :: ("acromicro.me/collections/".data ++
        (d1 ++ '/' :: (slug ++ '/' :: (d2 ++ '/' :: rest)))) := rfl
  unfold extractChartIdL
  rw [searchCharts_none _ hno, hskip, hcons]
  exact searchWith_cons_some _ _ _ _ (by rw [← hcons]; exact hcap)

/-- Counterexample to C1 as stated: this URL matches the collections
pattern `.../collections/9/slug/123456/...`, yet because its tail also
contains the charts literal, the first pattern wins and the extraction
returns a different identifier than the second digit group. -/
theorem extract_chart_id_collections_counterexample :
    extract_chart_id
        "https://www.macromicro.me/collections/9/slug/123456/macromicro.me/charts/777" =
      some "777" ∧
    ¬ (some ("777" : String) = some "123456") := ⟨by decide, by decide⟩

/-- Claim C1 (amended): for every URL of the collections form
`https://www.macromicro.me/collections/<digits>/<slug>/<digits>/<anything>`
in which the charts literal `macromicro.me/charts/` does not occur,
extraction returns the second digit group (the chart id), not the first. -/
theorem extract_chart_id_collections_second_group (d1 slug d2 rest : String)
    (hd1n : d1.data ≠ []) (hd1 : ∀ c ∈ d1.data, isDig c = true)
    (hsn : slug.data ≠ []) (hs : ∀ c ∈ slug.data, (c == '/') = false)
    (hd2n : d2.data ≠ []) (hd2 : ∀ c ∈ d2.data, isDig c = true)
    (hno : occursIn chartsPat
      ("https://www.macromicro.me/collections/" ++ d1 ++ "/" ++ slug ++ "/" ++ d2 ++ "/"
        ++ rest).data = false) :
    extract_chart_id
        ("https://www.macromicro.me/collections/" ++ d1 ++ "/" ++ slug ++ "/" ++ d2 ++ "/"
          ++ rest) = some d2 := by
  have hdata : ("https://www.macromicro.me/collections/" ++ d1 ++ "/" ++ slug ++ "/" ++ d2
      ++ "/" ++ rest).data =
      "https://www.".data ++
        (collectionsPat ++
          (d1.data ++ '/' :: (slug.data ++ '/' :: (d2.data ++ '/' :: rest.data)))) := by
    have hsplit : ∀ X : List Char,
        "https://www.".data ++ (collectionsPat ++ X) =
          "https://www.macromicro.me/collections/".data ++ X := by
      intro X
      rw [← List.append_assoc]
      rfl
    rw [hsplit]
    simp [String.data_append, List.append_assoc]
  unfold extract_chart_id
  rw [hdata]
  rw [extractChartIdL_collections d1.data slug.data d2.data rest.data hd1n hd1 hsn hs hd2n hd2
    (by rw [← hdata]; exact hno)]
  rfl

/-- Witness for the amended C1 at the URL family named by the spec. -/
theorem extract_chart_id_collections_second_group_witness :
    (∀ c ∈ ("123456" : String).data, isDig c = true) ∧
    extract_chart_id
        ("https://www.macromicro.me/collections/" ++ "9" ++ "/" ++ "slug" ++ "/" ++ "123456"
          ++ "/" ++ "anything") = some "123456" :=
  ⟨by decide,
    extract_chart_id_collections_second_group "9" "slug" "123456" "anything"
      (by decide) (by decide) (by decide) (by decide) (by decide) (by decide) (by decide)⟩

